import Mathlib

/-!
Verification development for the JFK document ingestion and indexing pipeline
(`jfk_manager.py`).  The Python source is shallowly embedded below:

* a small backtracking regular-expression engine models the `re` patterns the
  program uses (only the constructs those patterns need: case-insensitive
  literals, character classes, greedy bounded repeats, alternation, sequencing
  and word boundaries, with Python's leftmost-search and greedy-backtracking
  semantics);
* `normalize_text`, `extract_metadata` (with its OCR fallback and
  retry-by-re-raise loop), `validate_image`, the per-page OCR retry loop of
  `index_files`, and the per-document indexing step (already-indexed skip,
  cached-text reuse, extraction, MySQL upsert, status checkpointing) are
  translated into pure Lean functions over explicit state;
* the MySQL table `files` becomes an association list keyed by document id,
  the status JSON artifact becomes a `Status` value and the list of persisted
  snapshots, and the on-disk `ocr_<id>.txt` artifacts become an association
  list from path to file content.

External effects (EasyOCR results, `pdftoppm` rasterization, database and
insert availability, clock) are supplied as explicit per-document inputs, so
every run of the model is a deterministic function of those inputs.
-/

namespace JFK

/-! ### Python character classes and low-level string helpers -/

/-- ASCII fragment of Python's `\w` (the texts handled are ASCII). -/
def pyWordChar (c : Char) : Bool := c.isAlpha || c.isDigit || c = '_'

/-- Python's `\s`: space, tab, newline, carriage return, vertical tab, form feed. -/
def pyWs (c : Char) : Bool :=
  c = ' ' || c = '\t' || c = '\n' || c = '\r' || c = Char.ofNat 11 || c = Char.ofNat 12

/-- Case-sensitive "starts with" on character lists. -/
def startsWithL : List Char → List Char → Bool
  | [], _ => true
  | _ :: _, [] => false
  | a :: as, b :: bs => (a = b) && startsWithL as bs

/-- Case-sensitive "ends with" (Python `str.endswith`). -/
def endsWithL (pat s : List Char) : Bool := startsWithL pat.reverse s.reverse

/-- Case-insensitive match of the literal `cs` against `s` starting at the head. -/
def litMatchAux : List Char → List Char → Bool
  | [], _ => true
  | _ :: _, [] => false
  | c :: cs, d :: ds => (c.toLower = d.toLower) && litMatchAux cs ds

/-- Case-insensitive match of the literal `cs` inside `s` at offset `i`. -/
def litMatch (cs s : List Char) (i : ℕ) : Bool := litMatchAux cs (s.drop i)

/-- Length of the maximal run of characters satisfying `p`. -/
def runLenAux (p : Char → Bool) : List Char → ℕ
  | [] => 0
  | c :: cs => if p c then runLenAux p cs + 1 else 0

/-- Length of the maximal run of characters satisfying `p` in `s` from offset `i`. -/
def runLen (p : Char → Bool) (s : List Char) (i : ℕ) : ℕ := runLenAux p (s.drop i)

/-- The substring of `s` between offsets `i` (inclusive) and `e` (exclusive). -/
def slice (s : List Char) (i e : ℕ) : List Char := (s.drop i).take (e - i)

/-- `str.replace`: replace every non-overlapping occurrence, left to right.
The fuel is the length of the string; every step consumes at least one
character when the pattern is non-empty. -/
def pyReplaceAux (pat repl : List Char) : ℕ → List Char → List Char
  | 0, s => s
  | fuel + 1, s =>
    match s with
    | [] => []
    | c :: rest =>
      if pat ≠ [] ∧ startsWithL pat s then
        repl ++ pyReplaceAux pat repl fuel (s.drop pat.length)
      else c :: pyReplaceAux pat repl fuel rest

/-- Python `s.replace(pat, repl)`. -/
def pyReplace (s pat repl : String) : String :=
  ⟨pyReplaceAux pat.data repl.data s.data.length s.data⟩

/-- `re.sub(r'\s+', ' ', text)`: collapse every whitespace run to one space. -/
def collapseWsAux (prevWs : Bool) : List Char → List Char
  | [] => []
  | c :: cs =>
    if pyWs c then
      if prevWs then collapseWsAux true cs else ' ' :: collapseWsAux true cs
    else c :: collapseWsAux false cs

def collapseWs (l : List Char) : List Char := collapseWsAux false l

/-- Python `str.strip()` with `\s` characters. -/
def pyStrip (l : List Char) : List Char :=
  ((l.dropWhile pyWs).reverse.dropWhile pyWs).reverse

/-- Whether `str.strip()` of the string is empty (Python falsiness of the strip). -/
def allWsStr (s : String) : Bool := s.data.all pyWs

/-- One OCR-split repair of `normalize_text`: replace every occurrence of
`pre\s*ber`-style splits (e.g. `Novem\s*ber`, case-insensitively) by `repl`,
left-to-right and non-overlapping, exactly as `re.sub` does.  Because the
fragment after the optional whitespace starts with a letter, consuming the
maximal whitespace run is equivalent to the regex's greedy `\s*`. -/
def monthGlueAux (pre post repl : List Char) : ℕ → List Char → List Char
  | 0, s => s
  | fuel + 1, s =>
    match s with
    | [] => []
    | c :: rest =>
      if litMatch pre s 0 then
        let j := pre.length + runLen pyWs s pre.length
        if litMatch post s j then
          repl ++ monthGlueAux pre post repl fuel (s.drop (j + post.length))
        else c :: monthGlueAux pre post repl fuel rest
      else c :: monthGlueAux pre post repl fuel rest

def monthGlue (pre post repl : String) (l : List Char) : List Char :=
  monthGlueAux pre.data post.data repl.data (l.length + 1) l

/-- `normalize_text`: collapse whitespace, repair the three known month
splits (case-insensitively), then strip. -/
def normalize_text (t : String) : String :=
  let l1 := collapseWs t.data
  let l2 := monthGlue "Novem" "ber" "November" l1
  let l3 := monthGlue "Septem" "ber" "September" l2
  let l4 := monthGlue "Febru" "ary" "February" l3
  ⟨pyStrip l4⟩

/-! ### A small backtracking regex engine

Just enough of Python `re` for the six date patterns, the time pattern, the
location patterns and the mission-name pattern: case-insensitive literals,
character classes, greedy bounded repeats of a class, sequencing, ordered
alternation and `\b`.  `reMatch` is a continuation-passing matcher whose
backtracking order coincides with Python's (leftmost search position, ordered
alternatives, greedy repeats tried longest first). -/

inductive RE where
  | fail
  | eps
  | lit (cs : List Char)
  | cls (p : Char → Bool)
  | reps (lo : ℕ) (hi : Option ℕ) (p : Char → Bool)
  | seq (a b : RE)
  | alt (a b : RE)
  | bnd

/-- `\b` at offset `i`: one side is a word character and the other is not. -/
def isBoundary (s : List Char) (i : ℕ) : Bool :=
  (if i = 0 then false
   else match s.get? (i - 1) with
        | some c => pyWordChar c
        | none => false) !=
  (match s.get? i with
   | some c => pyWordChar c
   | none => false)

/-- Try repeat counts from `c` down to `lo`, greedily. -/
def tryCounts (k : ℕ → Option ℕ) (i lo : ℕ) : ℕ → Option ℕ
  | 0 => if lo = 0 then k i else none
  | c + 1 =>
    if c + 1 < lo then none
    else
      match k (i + (c + 1)) with
      | some r => some r
      | none => tryCounts k i lo c

/-- The matcher: match `re` in `s` at offset `i`, then run the continuation on
the end offset; returns the final end offset of the overall match. -/
def reMatch : RE → List Char → ℕ → (ℕ → Option ℕ) → Option ℕ
  | .fail, _, _, _ => none
  | .eps, _, i, k => k i
  | .lit cs, s, i, k => if litMatch cs s i then k (i + cs.length) else none
  | .cls p, s, i, k =>
    match s.get? i with
    | some c => if p c then k (i + 1) else none
    | none => none
  | .reps lo hi p, s, i, k =>
    let n := runLen p s i
    let n := match hi with
             | some h => min n h
             | none => n
    tryCounts k i lo n
  | .seq a b, s, i, k => reMatch a s i (fun j => reMatch b s j k)
  | .alt a b, s, i, k =>
    match reMatch a s i k with
    | some r => some r
    | none => reMatch b s i k
  | .bnd, s, i, k => if isBoundary s i then k i else none

/-- `re.search`: try offsets `0, 1, …` and return the first (leftmost) match
as a pair of start and end offsets. -/
def reSearchAux (re : RE) (s : List Char) : ℕ → ℕ → Option (ℕ × ℕ)
  | 0, _ => none
  | fuel + 1, i =>
    match reMatch re s i some with
    | some e => some (i, e)
    | none => reSearchAux re s fuel (i + 1)

def reSearch (re : RE) (s : List Char) : Option (ℕ × ℕ) :=
  reSearchAux re s (s.length + 1) 0

/-- Sequence a list of regexes. -/
def reCat (l : List RE) : RE := l.foldr RE.seq RE.eps

/-- Ordered alternation of a list of regexes. -/
def altList (rs : List RE) : RE := rs.foldr RE.alt RE.fail

def litc (s : String) : RE := RE.lit s.data

/-- `\d{lo,hi}`. -/
def dd (lo hi : ℕ) : RE := RE.reps lo (some hi) Char.isDigit

/-- `\s+`. -/
def wsp : RE := RE.reps 1 none pyWs

/-- `\s*`. -/
def wss : RE := RE.reps 0 none pyWs

/-! ### Metadata extraction (`extract_metadata`, lines 292–338) -/

def monthNames : List String :=
  ["January", "February", "March", "April", "May", "June", "July",
   "August", "September", "October", "November", "December"]

/-- `(?:January|February|…|December)`, case-insensitive. -/
def monthRE : RE := altList (monthNames.map (fun m => RE.lit m.data))

/-- `\b\d{1,2}/\d{1,2}/\d{2,4}\b` (e.g. 11/22/1963). -/
def dPat1 : RE := reCat [.bnd, dd 1 2, litc "/", dd 1 2, litc "/", dd 2 4, .bnd]

/-- `\b(?:Month)\s+\d{1,2},\s+\d{4}\b` (e.g. November 22, 1963). -/
def dPat2 : RE := reCat [.bnd, monthRE, wsp, dd 1 2, litc ",", wsp, dd 4 4, .bnd]

/-- `\b\d{1,2}\s+(?:Month)\s+\d{4}\b` (e.g. 9 November 1976). -/
def dPat3 : RE := reCat [.bnd, dd 1 2, wsp, monthRE, wsp, dd 4 4, .bnd]

/-- `\b(?:Month)\s+\d{1,2},\s*\d{2}\b` (e.g. June 8, 64). -/
def dPat4 : RE := reCat [.bnd, monthRE, wsp, dd 1 2, litc ",", wss, dd 2 2, .bnd]

/-- `\b\d{4}-\d{2}-\d{2}\b` (e.g. 1964-10-23). -/
def dPat5 : RE := reCat [.bnd, dd 4 4, litc "-", dd 2 2, litc "-", dd 2 2, .bnd]

/-- `\b\d{2}-\d{2}-\d{4}\b` (e.g. 06-30-1997). -/
def dPat6 : RE := reCat [.bnd, dd 2 2, litc "-", dd 2 2, litc "-", dd 4 4, .bnd]

/-- The `date_patterns` list of the source, in its literal order. -/
def datePatterns : List RE := [dPat1, dPat2, dPat3, dPat4, dPat5, dPat6]

/-- The `for pattern in date_patterns: … break` loop: the first pattern in
priority order that matches anywhere wins, returning its matched substring. -/
def firstPatternMatch : List RE → List Char → Option (List Char)
  | [], _ => none
  | p :: ps, s =>
    match reSearch p s with
    | some (i, e) => some (slice s i e)
    | none => firstPatternMatch ps s

def extractDate (t : String) : Option String :=
  (firstPatternMatch datePatterns t.data).map (fun l => ⟨l⟩)

/-- `\b\d{1,2}:\d{2}(?:\s*(?:AM|PM))?\b`. -/
def timeRE : RE :=
  reCat [.bnd, dd 1 2, litc ":", dd 2 2,
         .alt (reCat [wss, .alt (litc "AM") (litc "PM")]) .eps, .bnd]

def extractTime (t : String) : Option String :=
  (reSearch timeRE t.data).map (fun pr => (⟨slice t.data pr.1 pr.2⟩ : String))

def COMMON_LOCATIONS : List String :=
  ["Dallas", "Washington", "New Orleans", "Miami", "Chicago", "Los Angeles",
   "Texas", "Louisiana", "Florida", "Illinois", "California", "Cuba", "Mexico",
   "Havana", "Arlington", "Philadelphia", "New York", "New Hampshire", "Bruxelles",
   "Caracas", "Reno", "Nevada", "Scarsdale"]

/-- `\b<loc>(?:,\s*[A-Za-z]+)?\b`, case-insensitive. -/
def locRE (loc : String) : RE :=
  reCat [.bnd, RE.lit loc.data,
         .alt (reCat [litc ",", wss, RE.reps 1 none Char.isAlpha]) .eps, .bnd]

def extractLocation (t : String) : Option String :=
  let found := COMMON_LOCATIONS.filter (fun loc => (reSearch (locRE loc) t.data).isSome)
  if found.isEmpty then none else some (String.intercalate ", " found)

def MISSION_KEYWORDS : List String :=
  ["Operation", "Mission", "Project", "Plan", "Enigma", "Mongoose", "ZRRIFLE",
   "AMWORLD", "Cryptonym", "Program", "Civic Resistance", "KUDESK", "KUDARK"]

/-- The token class `[A-Za-z0-9-]` of the mission pattern. -/
def tokCls (c : Char) : Bool := c.isAlpha || c.isDigit || c = '-'

/-- Find, from the end of the token run downwards, the longest token length
(at least 1) after which `\b` holds: the greedy-with-backtracking semantics of
`([A-Za-z0-9-]+)\b`. -/
def tryTokEnd (s : List Char) (j2 : ℕ) : ℕ → Option ℕ
  | 0 => none
  | k + 1 => if isBoundary s (j2 + (k + 1)) then some (k + 1) else tryTokEnd s j2 k

/-- Match `\b<kw>\s+([A-Za-z0-9-]+)\b` at offset `i` (case-insensitive);
returns the match end and the captured token.  The whitespace run is taken
maximally, which is equivalent to the greedy `\s+` because the token class is
disjoint from whitespace. -/
def missionMatchAt (kw : List Char) (s : List Char) (i : ℕ) : Option (ℕ × List Char) :=
  if isBoundary s i && litMatch kw s i then
    let j := i + kw.length
    let n := runLen pyWs s j
    if n = 0 then none
    else
      let j2 := j + n
      match tryTokEnd s j2 (runLen tokCls s j2) with
      | some k => some (j2 + k, slice s j2 (j2 + k))
      | none => none
  else none

/-- `re.finditer`: non-overlapping matches, scanning left to right and
resuming after each match end. -/
def missionFindAux (kw : List Char) (s : List Char) : ℕ → ℕ → List (List Char)
  | 0, _ => []
  | fuel + 1, i =>
    if i > s.length then []
    else
      match missionMatchAt kw s i with
      | some (e, cap) => cap :: missionFindAux kw s fuel (max e (i + 1))
      | none => missionFindAux kw s fuel (i + 1)

/-- All captured tokens of `\b<kw>\s+([A-Za-z0-9-]+)\b` in the text. -/
def missionFindAll (kw : String) (t : List Char) : List String :=
  (missionFindAux kw.data t (t.length + 1) 0).map (fun l => (⟨l⟩ : String))

/-- `if mission_name not in mission_names_list: append`. -/
def dedupAppend (acc : List String) (x : String) : List String :=
  if x ∈ acc then acc else acc ++ [x]

/-- The `mission_names_list` the source builds: per keyword, every capture in
text order, appended with membership-deduplication. -/
def extractMissionList (t : String) : List String :=
  MISSION_KEYWORDS.foldl
    (fun acc kw =>
      (missionFindAll kw t.data).foldl
        (fun acc2 tok => dedupAppend acc2 (kw ++ " " ++ tok)) acc)
    []

def extractMissions (t : String) : Option String :=
  let l := extractMissionList t
  if l.isEmpty then none else some (String.intercalate ", " l)

structure Metadata where
  date : Option String
  time : Option String
  location : Option String
  missionNames : Option String
deriving DecidableEq

/-- The pure metadata computation of `extract_metadata` applied to an
already-normalized text (lines 292–338). -/
def extract_metadata_text (full : String) : Metadata :=
  { date := extractDate full
    time := extractTime full
    location := extractLocation full
    missionNames := extractMissions full }

/-! ### Image validation (`validate_image`, lines 145–174) -/

structure ImgFile where
  /-- `os.path.getsize` of the file, in bytes. -/
  sizeBytes : ℕ
  /-- `some (w, h)` when PIL can open and verify the image, `none` when the
  open/verify raises (undecodable image). -/
  dims : Option (ℤ × ℤ)
deriving DecidableEq

/-- Replace the value stored at key `k` in an association list. -/
def assocSet {α : Type} [DecidableEq α] {β : Type} (fs : List (α × β)) (k : α) (v : β) :
    List (α × β) :=
  if (fs.lookup k).isSome then fs.map (fun p => if p.1 = k then (p.1, v) else p)
  else fs ++ [(k, v)]

/-- `validate_image`: existence and 10 MB size checks, decode and dimension
checks, then downscale-and-save when a dimension exceeds 2000 pixels.
`jpegBytes` abstracts the size of the JPEG the resize writes back. -/
def validate_image (jpegBytes : ℤ → ℤ → ℕ) (fs : List (String × ImgFile))
    (p : String) : (Bool × String) × List (String × ImgFile) :=
  match fs.lookup p with
  | none => ((false, "Image file does not exist"), fs)
  | some f =>
    if f.sizeBytes > 10 * 1048576 then ((false, "Image file too large"), fs)
    else
      match f.dims with
      | none => ((false, "Invalid image"), fs)
      | some (w, h) =>
        if w ≤ 0 ∨ h ≤ 0 then ((false, "Image dimensions are invalid"), fs)
        else if w > 2000 ∨ h > 2000 then
          let sf : ℚ := min ((2000 : ℚ) / (w : ℚ)) ((2000 : ℚ) / (h : ℚ))
          let nw : ℤ := ⌊(w : ℚ) * sf⌋
          let nh : ℤ := ⌊(h : ℚ) * sf⌋
          ((true, ""), assocSet fs p ⟨jpegBytes nw nh, some (nw, nh)⟩)
        else ((true, ""), fs)

/-! ### The per-page OCR retry loop of `index_files` (lines 485–531)

An OCR attempt outcome is `some s` when `reader.readtext` returns and `s` is
the space-joined, stripped text (possibly empty), and `none` when it raises
(`TimeoutError` from the 60-second alarm, or any recognition error — the code
treats both identically).  `Ev` records the observable events: OCR
invocations, the 5-second retry delay, and the 2-second per-attempt cooldown
of the `finally` block. -/

inductive Ev where
  | ocrCall
  | sleepRetry
  | sleepCooldown
deriving DecidableEq

/-- The `for attempt in range(max_retries)` loop around one page's OCR call.
`fuel` is the number of remaining attempts (`max_retries - attempt`). -/
def ocrLoop (att : List (Option String)) : ℕ → ℕ → Option String × List Ev
  | 0, _ => (none, [])
  | rem + 1, attempt =>
    match att.getD attempt none with
    | some s => (some s, [Ev.ocrCall, Ev.sleepCooldown])
    | none =>
      if rem = 0 then (none, [Ev.ocrCall, Ev.sleepCooldown])
      else
        let p := ocrLoop att rem (attempt + 1)
        (p.1, Ev.ocrCall :: Ev.sleepRetry :: Ev.sleepCooldown :: p.2)

/-- One page's OCR with `max_retries = 2`. -/
def ocrPage (att : List (Option String)) : Option String × List Ev :=
  ocrLoop att 2 0

/-- A rasterized page as seen by `index_files`: its `validate_image` verdict
and the outcome of each OCR attempt. -/
structure PageEnv where
  valid : Bool
  att : List (Option String)
deriving DecidableEq

/-- The fixed-width separator `'='*80`. -/
def sepLine : String := ⟨List.replicate 80 '='⟩

/-- The `ocr_text` entry appended for page index `i` (0-based) when the
stripped OCR text `s` is non-empty. -/
def pageEntry (i : ℕ) (s : String) : String :=
  "Page " ++ toString (i + 1) ++ ":\n" ++ s ++ "\n" ++ sepLine

/-- The `for i, page_image in enumerate(page_images)` loop: skip invalid
pages, OCR the valid ones with the retry loop, and collect the page-marked
entries in page order together with the event trace. -/
def runPagesAux : ℕ → List PageEnv → List String × List Ev
  | _, [] => ([], [])
  | i, p :: ps =>
    let rest := runPagesAux (i + 1) ps
    if ¬ p.valid then rest
    else
      let r := ocrPage p.att
      let entry :=
        match r.1 with
        | some s => if s = "" then [] else [pageEntry i s]
        | none => []
      (entry ++ rest.1, r.2 ++ rest.2)

/-! ### `extract_metadata` (lines 186–346)

The outer `for attempt in range(max_retries)` loop retries by re-raising: on
the non-final attempt, a page OCR failure (timeout or error) propagates out
and restarts the whole extraction; on the final attempt the failing page is
skipped.  Native text extraction is attempted first and the OCR fallback
(rasterize, take the first two pages, validate, OCR once per page per outer
attempt) runs only when the stripped native text is empty. -/

/-- A rasterized page in `extract_metadata`'s fallback: its validation verdict
and the OCR outcome at each outer attempt. -/
structure MPage where
  valid : Bool
  att : List (Option String)
deriving DecidableEq

/-- Inputs of one `extract_metadata` call: the concatenated PyPDF2 text layer
and the `pdftoppm` outcome (`none` = the rasterizer errored). -/
structure MetaEnv where
  nativeText : String
  raster : Option (List MPage)
deriving DecidableEq

/-- Counts of the externally observable extraction work. -/
structure Calls where
  extractCalls : ℕ
  rasterCalls : ℕ
  ocrCalls : ℕ
deriving DecidableEq

def Calls.zero : Calls := ⟨0, 0, 0⟩

def Calls.add (a b : Calls) : Calls :=
  ⟨a.extractCalls + b.extractCalls, a.rasterCalls + b.rasterCalls, a.ocrCalls + b.ocrCalls⟩

/-- The per-page OCR loop of `extract_metadata` at outer attempt `a`
(lines 236–273), accumulating onto `full_text`.  Returns `none` when a page
failure re-raises (only when not the last attempt), otherwise the accumulated
text; also counts the OCR calls made. -/
def metaPages (a : ℕ) (isLast : Bool) : List MPage → String → Option String × Calls
  | [], acc => (some acc, Calls.zero)
  | p :: ps, acc =>
    if ¬ p.valid then metaPages a isLast ps acc
    else
      match p.att.getD a none with
      | some t =>
        let acc2 := if t = "" then acc else acc ++ t ++ "\n"
        let r := metaPages a isLast ps acc2
        (r.1, Calls.add ⟨0, 0, 1⟩ r.2)
      | none =>
        if isLast then
          let r := metaPages a isLast ps acc
          (r.1, Calls.add ⟨0, 0, 1⟩ r.2)
        else (none, ⟨0, 0, 1⟩)

/-- One outer attempt of `extract_metadata`.  The result is
`some (some m)` = metadata returned, `some none` = `return None`
(rasterizer failed on the last attempt), `none` = exception re-raised to the
outer handler (retry). -/
def extractAttempt (env : MetaEnv) (a : ℕ) (isLast : Bool) :
    Option (Option Metadata) × Calls :=
  if ¬ allWsStr env.nativeText then
    (some (some (extract_metadata_text (normalize_text env.nativeText))), Calls.zero)
  else
    match env.raster with
    | none => (if isLast then some none else none, ⟨0, 1, 0⟩)
    | some pages =>
      let r := metaPages a isLast (pages.take 2) env.nativeText
      match r.1 with
      | none => (none, Calls.add ⟨0, 1, 0⟩ r.2)
      | some ft =>
        (some (some (extract_metadata_text (normalize_text ft))),
         Calls.add ⟨0, 1, 0⟩ r.2)

/-- The outer retry loop (`for attempt in range(max_retries)` with the
`except` at line 339).  `fuel` is the number of remaining attempts. -/
def emLoop (env : MetaEnv) : ℕ → ℕ → Option Metadata × Calls
  | 0, _ => (none, Calls.zero)
  | rem + 1, a =>
    match extractAttempt env a (rem = 0) with
    | (some r, c) => (r, c)
    | (none, c) =>
      if rem = 0 then (none, c)
      else
        let r := emLoop env rem (a + 1)
        (r.1, Calls.add c r.2)

/-- `extract_metadata` with its default `max_retries = 2`. -/
def extract_metadata (env : MetaEnv) : Option Metadata × Calls :=
  emLoop env 2 0

/-! ### The indexing orchestrator (`index_files`, lines 362–591) -/

/-- A row of the MySQL `files` table (minus the key). -/
structure IndexRecord where
  filename : String
  content : String
  indexTime : ℕ
  date : Option String
  time : Option String
  location : Option String
  missionNames : Option String
deriving DecidableEq

/-- The single SQL statement used (lines 553–566):
`INSERT … ON DUPLICATE KEY UPDATE content, index_time, date, time, location,
mission_names` — on a key conflict every listed column is overwritten, and
`filename` is not listed. -/
def upsertFiles (db : List (String × IndexRecord)) (id : String) (r : IndexRecord) :
    List (String × IndexRecord) :=
  if (db.lookup id).isSome then
    db.map (fun p => if p.1 = id then (p.1, { r with filename := p.2.filename }) else p)
  else db ++ [(id, r)]

/-- The `indexing_status_dict` / status JSON artifact. -/
structure Status where
  inProgress : Bool
  totalFiles : ℕ
  filesProcessed : ℕ
  progress : ℚ
deriving DecidableEq

/-- The exact rational value of `(fp / total) * 100`, written with `mkRat` so
that it evaluates by kernel reduction (the Python source computes the same
value in floating point; the model is exact). -/
def ratio100 (fp total : ℕ) : ℚ := mkRat (fp * 100) total

/-- The three lines repeated at every per-document transition: increment
`files_processed` and recompute `progress = processed / total * 100`. -/
def bumpStatus (st : Status) : Status :=
  let fp := st.filesProcessed + 1
  { st with
      filesProcessed := fp
      progress := ratio100 fp st.totalFiles }

/-- `item_id = pdf_file.replace('.pdf', '').replace('/', '_')` (line 393). -/
def itemId (p : String) : String := pyReplace (pyReplace p ".pdf" "") "/" "_"

/-- The `ocr_<item_id>.txt` cache path (line 414). -/
def ocrPath (id : String) : String := "ocr_" ++ id ++ ".txt"

/-- The environment of one loop iteration of `index_files`: the document's
source-relative path and every external outcome the iteration consumes. -/
structure DocEnv where
  relPath : String
  /-- whether the `SELECT id FROM files` duplicate check succeeds. -/
  dbCheckOk : Bool
  /-- inputs of the `extract_metadata` call. -/
  meta : MetaEnv
  /-- the `pdftoppm` outcome of the full-indexing pass
  (`none` = `CalledProcessError`), with per-page validation and OCR outcomes. -/
  raster : Option (List PageEnv)
  /-- whether the `INSERT … ON DUPLICATE KEY UPDATE` succeeds. -/
  insertOk : Bool
  /-- `datetime.now()` at the insert. -/
  now : ℕ
deriving DecidableEq

/-- Result of one per-document iteration: the new status, record store and
cached-text filesystem, the status snapshots persisted during the iteration,
and the extraction work performed. -/
structure StepOut where
  status : Status
  db : List (String × IndexRecord)
  fs : List (String × String)
  saves : List Status
  calls : Calls

/-- The upsert-and-checkpoint tail of an iteration (lines 552–577).  A MySQL
error at the insert reconnects and `continue`s without counting the document
as processed. -/
def finishUpsert (st : Status) (db : List (String × IndexRecord))
    (fs : List (String × String)) (env : DocEnv) (id : String)
    (content : String) (md : Metadata) (calls : Calls) : StepOut :=
  if ¬ env.insertOk then ⟨st, db, fs, [], calls⟩
  else
    let db2 := upsertFiles db id
      ⟨env.relPath, content, env.now, md.date, md.time, md.location, md.missionNames⟩
    let st2 := bumpStatus st
    ⟨st2, db2, fs, [st2], calls⟩

/-- The full extraction branch (lines 427–549): `extract_metadata`, then
`pdftoppm`, then the first three pages through validation and the OCR retry
loop; the joined OCR text is written to `ocr_<id>.txt` unconditionally before
the upsert. -/
def fullIndexPath (st : Status) (db : List (String × IndexRecord))
    (fs : List (String × String)) (env : DocEnv) (id : String) : StepOut :=
  let m := extract_metadata env.meta
  let mc := Calls.add ⟨1, 0, 0⟩ m.2
  match m.1 with
  | none =>
    let st2 := bumpStatus st
    ⟨st2, db, fs, [st2], mc⟩
  | some md =>
    match env.raster with
    | none =>
      let st2 := bumpStatus st
      ⟨st2, db, fs, [st2], Calls.add mc ⟨0, 1, 0⟩⟩
    | some pages =>
      let p3 := pages.take 3
      if p3.isEmpty then
        let st2 := bumpStatus st
        ⟨st2, db, fs, [st2], Calls.add mc ⟨0, 1, 0⟩⟩
      else
        let pr := runPagesAux 0 p3
        let content := String.intercalate "\n" pr.1
        let fs2 := assocSet fs (ocrPath id) content
        finishUpsert st db fs2 env id content md
          (Calls.add mc ⟨0, 1, pr.2.count Ev.ocrCall⟩)

/-- The cached-text branch (lines 413–426): reuse the artifact's content but
still re-run `extract_metadata`. -/
def cacheHitPath (st : Status) (db : List (String × IndexRecord))
    (fs : List (String × String)) (env : DocEnv) (id : String) (c : String) : StepOut :=
  let m := extract_metadata env.meta
  let mc := Calls.add ⟨1, 0, 0⟩ m.2
  match m.1 with
  | none =>
    let st2 := bumpStatus st
    ⟨st2, db, fs, [st2], mc⟩
  | some md => finishUpsert st db fs env id c md mc

/-- One iteration of the `for pdf_file in pdf_files` loop (lines 391–578). -/
def indexStep (st : Status) (db : List (String × IndexRecord))
    (fs : List (String × String)) (env : DocEnv) : StepOut :=
  let id := itemId env.relPath
  if ¬ env.dbCheckOk then ⟨st, db, fs, [], Calls.zero⟩
  else if (db.lookup id).isSome then
    let st2 := bumpStatus st
    ⟨st2, db, fs, [st2], Calls.zero⟩
  else
    match fs.lookup (ocrPath id) with
    | some c =>
      if c = "" then fullIndexPath st db fs env id
      else cacheHitPath st db fs env id c
    | none => fullIndexPath st db fs env id

/-- The whole per-document loop, threading status, record store and cache. -/
def runDocs (st : Status) (db : List (String × IndexRecord))
    (fs : List (String × String)) : List DocEnv → StepOut
  | [] => ⟨st, db, fs, [], Calls.zero⟩
  | e :: es =>
    let o := indexStep st db fs e
    let r := runDocs o.status o.db o.fs es
    ⟨r.status, r.db, r.fs, o.saves ++ r.saves, Calls.add o.calls r.calls⟩

/-- Result of one `index_files` call: final state, the full ordered list of
persisted snapshots, the sub-list persisted at per-document transitions, and
the work counts. -/
structure RunOut where
  status : Status
  db : List (String × IndexRecord)
  fs : List (String × String)
  snapshots : List Status
  perDocSaves : List Status
  calls : Calls

/-- `index_files(limit)`: set `in_progress`, zero `files_processed` (leaving
`progress` and `total_files` as they were) and persist; enumerate, apply the
limit (Python's `if limit:` ignores both `None` and `0`), set `total_files`
and persist; loop when the list is non-empty; finally clear `in_progress` and
persist. -/
def index_files (st0 : Status) (db : List (String × IndexRecord))
    (fs : List (String × String)) (docs : List DocEnv) (limit : Option ℕ) : RunOut :=
  let s1 := { st0 with inProgress := true, filesProcessed := 0 }
  let files :=
    match limit with
    | some l => if l = 0 then docs else docs.take l
    | none => docs
  let s2 := { s1 with totalFiles := files.length }
  let body :=
    if files.length > 0 then runDocs s2 db fs files
    else ⟨s2, db, fs, [], Calls.zero⟩
  let sF := { body.status with inProgress := false }
  ⟨sF, body.db, body.fs, s1 :: s2 :: (body.saves ++ [sF]), body.saves, body.calls⟩

/-! ### Auxiliary definitions used by the theorems -/

/-- The raw stream of mission phrases, before deduplication: for each keyword
in vocabulary order, every `"<keyword> <token>"` occurrence in text order. -/
def missionStream (t : String) : List String :=
  (MISSION_KEYWORDS.map
    (fun kw => (missionFindAll kw t.data).map (fun tok => kw ++ " " ++ tok))).flatten

/-- First-seen-order deduplication: keep the first occurrence of each element,
drop the later repeats. -/
def dedupFirst : List String → List String
  | [] => []
  | x :: xs => x :: dedupFirst (xs.filter (fun y => y ≠ x))
termination_by l => l.length
decreasing_by
  simp only [List.length_cons]
  exact Nat.lt_succ_of_le (List.length_filter_le _ _)

/-! ### Helper lemmas -/

theorem ratio100_eq (fp total : ℕ) :
    ratio100 fp total = (fp : ℚ) / (total : ℚ) * 100 := by
  unfold ratio100
  rw [Rat.mkRat_eq_div]
  push_cast
  ring

theorem Calls.zero_add (c : Calls) : Calls.add Calls.zero c = c := by
  cases c
  simp [Calls.add, Calls.zero]

theorem lookup_map_replace {β : Type} (g : β → β) (id : String) :
    ∀ (db : List (String × β)) (old : β), db.lookup id = some old →
      (db.map (fun p => if p.1 = id then (p.1, g p.2) else p)).lookup id = some (g old)
  | [], _, h => by simp [List.lookup] at h
  | (k, v) :: rest, old, h => by
    by_cases hk : id = k
    · subst hk
      simp only [List.lookup_cons, beq_self_eq_true, Option.some.injEq] at h
      subst h
      simp [List.lookup_cons]
    · have hbeq : (id == k) = false := beq_false_of_ne hk
      simp only [List.lookup_cons, hbeq] at h
      simp only [List.map_cons, if_neg (fun hkk : k = id => hk hkk.symm),
        List.lookup_cons, hbeq]
      exact lookup_map_replace g id rest old h

theorem lookup_append_none {β : Type} (id : String) (v : β) :
    ∀ (db : List (String × β)), db.lookup id = none →
      (db ++ [(id, v)]).lookup id = some v
  | [], _ => by simp [List.lookup_cons]
  | (k, w) :: rest, h => by
    by_cases hk : id = k
    · subst hk
      simp [List.lookup_cons] at h
    · have hbeq : (id == k) = false := beq_false_of_ne hk
      simp only [List.lookup_cons, hbeq] at h
      simp only [List.cons_append, List.lookup_cons, hbeq]
      exact lookup_append_none id v rest h

theorem assocSet_lookup_self {β : Type} [DecidableEq β] (fs : List (String × β))
    (k : String) (v : β) : (assocSet fs k v).lookup k = some v := by
  unfold assocSet
  rcases h : fs.lookup k with _ | old
  · simp only [h, Option.isSome_none, Bool.false_eq_true, if_false]
    exact lookup_append_none k v fs h
  · simp only [h, Option.isSome_some, if_true]
    exact lookup_map_replace (fun _ => v) k fs old h

theorem finishUpsert_fs (st : Status) (db : List (String × IndexRecord))
    (fs : List (String × String)) (env : DocEnv) (id content : String)
    (md : Metadata) (calls : Calls) :
    (finishUpsert st db fs env id content md calls).fs = fs := by
  unfold finishUpsert
  by_cases h : env.insertOk = true <;> simp [h]

theorem finishUpsert_calls (st : Status) (db : List (String × IndexRecord))
    (fs : List (String × String)) (env : DocEnv) (id content : String)
    (md : Metadata) (calls : Calls) :
    (finishUpsert st db fs env id content md calls).calls = calls := by
  unfold finishUpsert
  by_cases h : env.insertOk = true <;> simp [h]

theorem finishUpsert_saves (st : Status) (db : List (String × IndexRecord))
    (fs : List (String × String)) (env : DocEnv) (id content : String)
    (md : Metadata) (calls : Calls) :
    (finishUpsert st db fs env id content md calls).saves = [] ∨
    (finishUpsert st db fs env id content md calls).saves = [bumpStatus st] := by
  unfold finishUpsert
  by_cases h : env.insertOk = true
  · right; simp [h]
  · left; simp [h]

theorem fullIndexPath_saves (st : Status) (db : List (String × IndexRecord))
    (fs : List (String × String)) (env : DocEnv) (id : String) :
    (fullIndexPath st db fs env id).saves = [] ∨
    (fullIndexPath st db fs env id).saves = [bumpStatus st] := by
  unfold fullIndexPath
  rcases hm : (extract_metadata env.meta).1 with _ | md
  · right; simp [hm]
  · rcases hr : env.raster with _ | pages
    · right; simp [hm, hr]
    · by_cases hp : (pages.take 3).isEmpty
      · right; simp [hm, hr, hp]
      · simp only [hm, hr, Bool.not_eq_true] at *
        simp only [hm, hr, hp, Bool.false_eq_true, if_false]
        exact finishUpsert_saves _ _ _ _ _ _ _ _

theorem cacheHitPath_saves (st : Status) (db : List (String × IndexRecord))
    (fs : List (String × String)) (env : DocEnv) (id c : String) :
    (cacheHitPath st db fs env id c).saves = [] ∨
    (cacheHitPath st db fs env id c).saves = [bumpStatus st] := by
  unfold cacheHitPath
  rcases hm : (extract_metadata env.meta).1 with _ | md
  · right; simp [hm]
  · simp only [hm]
    exact finishUpsert_saves _ _ _ _ _ _ _ _

theorem indexStep_saves (st : Status) (db : List (String × IndexRecord))
    (fs : List (String × String)) (env : DocEnv) :
    (indexStep st db fs env).saves = [] ∨
    (indexStep st db fs env).saves = [bumpStatus st] := by
  unfold indexStep
  by_cases h1 : env.dbCheckOk = true
  · by_cases h2 : (db.lookup (itemId env.relPath)).isSome
    · right; simp [h1, h2]
    · rcases h3 : fs.lookup (ocrPath (itemId env.relPath)) with _ | c
      · simp only [h1, h2, h3, Bool.not_true, Bool.false_eq_true, if_false,
          Bool.not_eq_true]
        simp [h1, h2, h3]
        exact fullIndexPath_saves _ _ _ _ _
      · by_cases hc : c = ""
        · subst hc
          simp [h1, h2, h3]
          exact fullIndexPath_saves _ _ _ _ _
        · simp [h1, h2, h3, hc]
          exact cacheHitPath_saves _ _ _ _ _ _
  · left; simp [h1]

theorem runDocs_progress (docs : List DocEnv) :
    ∀ st db fs s, s ∈ (runDocs st db fs docs).saves →
      s.progress = ratio100 s.filesProcessed s.totalFiles := by
  induction docs with
  | nil => intro st db fs s hs; simp [runDocs] at hs
  | cons e es ih =>
    intro st db fs s hs
    simp only [runDocs, List.mem_append] at hs
    rcases hs with hs | hs
    · rcases indexStep_saves st db fs e with h | h
      · rw [h] at hs; simp at hs
      · rw [h] at hs
        simp only [List.mem_singleton] at hs
        subst hs
        rfl
    · exact ih _ _ _ s hs

theorem indexStep_full (st : Status) (db : List (String × IndexRecord))
    (fs : List (String × String)) (env : DocEnv)
    (h1 : env.dbCheckOk = true)
    (h2 : db.lookup (itemId env.relPath) = none)
    (h3 : fs.lookup (ocrPath (itemId env.relPath)) = none) :
    indexStep st db fs env = fullIndexPath st db fs env (itemId env.relPath) := by
  unfold indexStep
  simp [h1, h2, h3]

theorem indexStep_cache (st : Status) (db : List (String × IndexRecord))
    (fs : List (String × String)) (env : DocEnv) (c : String)
    (h1 : env.dbCheckOk = true)
    (h2 : db.lookup (itemId env.relPath) = none)
    (h3 : fs.lookup (ocrPath (itemId env.relPath)) = some c)
    (h4 : c ≠ "") :
    indexStep st db fs env = cacheHitPath st db fs env (itemId env.relPath) c := by
  unfold indexStep
  simp [h1, h2, h3, h4]

/-- `extract_metadata` on a non-empty native text layer: the metadata comes
from the normalized native text and no rasterization or OCR happens. -/
theorem extract_metadata_native (env : MetaEnv)
    (h : allWsStr env.nativeText = false) :
    extract_metadata env =
      (some (extract_metadata_text (normalize_text env.nativeText)), Calls.zero) := by
  have ha : ∀ (a : ℕ) (L : Bool), extractAttempt env a L =
      (some (some (extract_metadata_text (normalize_text env.nativeText))), Calls.zero) := by
    intro a L
    unfold extractAttempt
    simp [h]
  show (match extractAttempt env 0 false with
        | (some r, c) => (r, c)
        | (none, c) =>
          ((emLoop env 1 1).1, Calls.add c (emLoop env 1 1).2)) = _
  rw [ha 0 false]

/-! ### Claims -/

def c2env : DocEnv :=
  ⟨"national_archives/c2.pdf", true, ⟨"xy", none⟩, some [⟨true, [some "OCRD"]⟩], true, 5⟩

/-- C2, counterexample.  A fresh document whose native text layer ("xy") is
non-empty after stripping: the full-indexing pass nevertheless rasterizes
(one `pdftoppm` call) and OCRs (one call), and the content it stores is the
page-marked OCR text, not the native text — the native text only feeds the
metadata step. -/
theorem claim_C2_counterexample :
    allWsStr c2env.meta.nativeText = false ∧
    (indexStep ⟨true, 1, 0, 0⟩ [] [] c2env).calls.rasterCalls = 1 ∧
    (indexStep ⟨true, 1, 0, 0⟩ [] [] c2env).calls.ocrCalls = 1 ∧
    ((indexStep ⟨true, 1, 0, 0⟩ [] [] c2env).db.lookup
        "national_archives_c2").map (fun r => r.content) =
      some ("Page 1:\nOCRD\n" ++ sepLine) ∧
    ((indexStep ⟨true, 1, 0, 0⟩ [] [] c2env).db.lookup
        "national_archives_c2").map (fun r => r.content) ≠
      some c2env.meta.nativeText := by
  refine ⟨by decide, by decide, by decide, by decide, by decide⟩

/-- C2, amended.  Native text extraction is attempted first *within
`extract_metadata`*: when the stripped native result is non-empty the
metadata is computed from that native text and `extract_metadata` performs no
rasterization and no OCR.  The full-indexing pass, however, always performs
its own rasterization (exactly one `pdftoppm` call) to produce the stored
content, even when the native text is non-empty. -/
theorem claim_C2_amended :
    (∀ env : MetaEnv, allWsStr env.nativeText = false →
      extract_metadata env =
        (some (extract_metadata_text (normalize_text env.nativeText)), Calls.zero)) ∧
    (∀ st db fs env, env.dbCheckOk = true →
      db.lookup (itemId env.relPath) = none →
      fs.lookup (ocrPath (itemId env.relPath)) = none →
      allWsStr env.meta.nativeText = false →
      (indexStep st db fs env).calls.rasterCalls = 1) := by
  refine ⟨extract_metadata_native, ?_⟩
  intro st db fs env h1 h2 h3 h4
  rw [indexStep_full st db fs env h1 h2 h3]
  have hm := extract_metadata_native env.meta h4
  rcases hr : env.raster with _ | pages
  · simp [fullIndexPath, hm, hr, Calls.add, Calls.zero]
  · by_cases hp : (pages.take 3).isEmpty
    · simp [fullIndexPath, hm, hr, hp, Calls.add, Calls.zero]
    · simp only [Bool.not_eq_true] at hp
      simp only [fullIndexPath, hm, hr, hp, Bool.false_eq_true, if_false]
      rw [finishUpsert_calls]
      simp [Calls.add, Calls.zero]

/-- C2 witness: the amended statement at concrete inputs. -/
theorem claim_C2_amended_witness :
    extract_metadata (⟨"xy", none⟩ : MetaEnv) =
      (some (extract_metadata_text (normalize_text "xy")), Calls.zero) ∧
    (indexStep ⟨true, 1, 0, 0⟩ [] [] c2env).calls.rasterCalls = 1 :=
  ⟨claim_C2_amended.1 ⟨"xy", none⟩ (by decide),
   claim_C2_amended.2 ⟨true, 1, 0, 0⟩ [] [] c2env (by decide) (by decide) (by decide)
     (by decide)⟩

def c3doc : DocEnv := ⟨"national_archives/d.pdf", true, ⟨"x", none⟩, none, true, 0⟩
def c3rec : IndexRecord := ⟨"f", "c", 0, none, none, none, none⟩

/-- First indexing cycle: one document, already present in the record store,
starting from the pristine status. -/
def c3run1 : RunOut :=
  index_files ⟨false, 0, 0, 0⟩ [("national_archives_d", c3rec)] [] [c3doc] none

/-- Second indexing cycle over the same state (the restart loop of `main`
calls `index_files` again with the same global status dictionary). -/
def c3run2 : RunOut := index_files c3run1.status c3run1.db c3run1.fs [c3doc] none

/-- C3, counterexample.  `index_files` resets `files_processed` but not
`progress` at the start of an enumeration, so the very first snapshot
persisted by the second cycle is `{in_progress: true, total_files: 1,
files_processed: 0, progress: 100}` — its progress is the stale 100 from the
previous cycle, not `(0 / 1) * 100 = 0`, violating the claimed invariant and
the claimed zero-progress start. -/
theorem claim_C3_counterexample :
    c3run2.snapshots.head? = some ⟨true, 1, 0, (100 : ℚ)⟩ ∧
    (⟨true, 1, 0, (100 : ℚ)⟩ : Status).totalFiles > 0 ∧
    (⟨true, 1, 0, (100 : ℚ)⟩ : Status).progress ≠
      ((⟨true, 1, 0, (100 : ℚ)⟩ : Status).filesProcessed : ℚ) /
        ((⟨true, 1, 0, (100 : ℚ)⟩ : Status).totalFiles : ℚ) * 100 := by
  refine ⟨by decide, by norm_num, by norm_num⟩

/-- C3, amended.  Every snapshot persisted at a per-document transition does
satisfy `progress = (files_processed / total_files) * 100`; the snapshots
persisted at the start of an enumeration (and the final `in_progress = false`
one) merely carry over the previous progress value, so the start-of-
enumeration snapshot has zero progress only when the carried-over value is
zero — in particular on the first run from the pristine initial status. -/
theorem claim_C3_amended :
    (∀ st0 db fs docs limit s,
      s ∈ (index_files st0 db fs docs limit).perDocSaves →
      s.progress = (s.filesProcessed : ℚ) / (s.totalFiles : ℚ) * 100) ∧
    (∀ db fs docs limit,
      (index_files ⟨false, 0, 0, 0⟩ db fs docs limit).snapshots.head? =
        some ⟨true, 0, 0, 0⟩) := by
  constructor
  · intro st0 db fs docs limit s hs
    rw [← ratio100_eq]
    simp only [index_files] at hs
    split at hs
    · exact runDocs_progress _ _ _ _ s hs
    · simp at hs
  · intro db fs docs limit
    rfl

/-- C3 witness: the amended statement at the concrete first cycle. -/
theorem claim_C3_amended_witness :
    (⟨true, 1, 1, ratio100 1 1⟩ : Status).progress =
      ((⟨true, 1, 1, ratio100 1 1⟩ : Status).filesProcessed : ℚ) /
        ((⟨true, 1, 1, ratio100 1 1⟩ : Status).totalFiles : ℚ) * 100 ∧
    (index_files ⟨false, 0, 0, 0⟩ [] [] [] none).snapshots.head? =
      some ⟨true, 0, 0, 0⟩ :=
  ⟨claim_C3_amended.1 ⟨false, 0, 0, 0⟩ [("national_archives_d", c3rec)] [] [c3doc]
      none ⟨true, 1, 1, ratio100 1 1⟩ (by decide),
   claim_C3_amended.2 [] [] [] none⟩

def c5env : DocEnv :=
  ⟨"national_archives/e.pdf", true, ⟨"mm", none⟩, some [⟨true, [some ""]⟩], true, 3⟩

/-- C5, counterexample.  A document whose single OCR attempt succeeds with
*empty* text: the pass still writes the `ocr_<id>.txt` artifact (with empty
content), so the artifact is present although no prior OCR pass produced
non-empty content — refuting the "present iff non-empty content" direction.
And with that empty artifact present, a later visit of the same (still
unindexed) document takes the full re-extraction path (one rasterization),
not the cache-hit path — so presence alone is not the deciding condition. -/
theorem claim_C5_counterexample :
    (indexStep ⟨true, 1, 0, 0⟩ [] [] c5env).fs.lookup
        (ocrPath "national_archives_e") = some "" ∧
    ((indexStep ⟨true, 1, 0, 0⟩ [] [] c5env).db.lookup
        "national_archives_e").map (fun r => r.content) = some "" ∧
    (indexStep ⟨true, 1, 0, 0⟩ [] [("ocr_national_archives_e.txt", "")]
        c5env).calls.rasterCalls = 1 := by
  refine ⟨by decide, by decide, by decide⟩

/-- C5, amended.  The artifact `ocr_<id>.txt` is written by every
full-extraction pass that reaches the OCR stage, whether or not the OCR text
is empty; and the cache-hit path is taken exactly when the artifact is
present *and non-empty*, in which case the cached text becomes the stored
content of the upserted record. -/
theorem claim_C5_amended :
    (∀ st db fs env md pages, env.dbCheckOk = true →
      db.lookup (itemId env.relPath) = none →
      fs.lookup (ocrPath (itemId env.relPath)) = none →
      (extract_metadata env.meta).1 = some md →
      env.raster = some pages →
      (pages.take 3).isEmpty = false →
      ((indexStep st db fs env).fs.lookup (ocrPath (itemId env.relPath))).isSome) ∧
    (∀ st db fs env c md mc, env.dbCheckOk = true →
      db.lookup (itemId env.relPath) = none →
      fs.lookup (ocrPath (itemId env.relPath)) = some c →
      c ≠ "" →
      extract_metadata env.meta = (some md, mc) →
      env.insertOk = true →
      (indexStep st db fs env).db.lookup (itemId env.relPath) =
        some ⟨env.relPath, c, env.now, md.date, md.time, md.location,
              md.missionNames⟩) := by
  constructor
  · intro st db fs env md pages h1 h2 h3 hmd hr hp
    rw [indexStep_full st db fs env h1 h2 h3]
    simp only [fullIndexPath, hmd, hr, hp, Bool.false_eq_true, if_false]
    rw [finishUpsert_fs, assocSet_lookup_self]
    rfl
  · intro st db fs env c md mc h1 h2 h3 h4 hm hins
    rw [indexStep_cache st db fs env c h1 h2 h3 h4]
    simp only [cacheHitPath, hm]
    unfold finishUpsert
    simp only [hins, Bool.not_true, Bool.false_eq_true, if_false]
    unfold upsertFiles
    simp only [h2, Option.isSome_none, Bool.false_eq_true, if_false]
    exact lookup_append_none _ _ _ h2

/-- C5 witness: the amended statement at concrete inputs. -/
theorem claim_C5_amended_witness :
    ((indexStep ⟨true, 1, 0, 0⟩ [] [] c5env).fs.lookup
        (ocrPath "national_archives_e")).isSome ∧
    (indexStep ⟨true, 1, 0, 0⟩ [] [("ocr_national_archives_e.txt", "CACHED")]
        c5env).db.lookup "national_archives_e" =
      some ⟨"national_archives/e.pdf", "CACHED", 3, none, none, none, none⟩ :=
  ⟨claim_C5_amended.1 ⟨true, 1, 0, 0⟩ [] [] c5env ⟨none, none, none, none⟩
      [⟨true, [some ""]⟩] (by decide) (by decide) (by decide) (by decide) (by decide)
      (by decide),
   claim_C5_amended.2 ⟨true, 1, 0, 0⟩ [] [("ocr_national_archives_e.txt", "CACHED")]
      c5env "CACHED" ⟨none, none, none, none⟩ Calls.zero (by decide) (by decide)
      (by decide) (by decide) (by decide) (by decide)⟩

def c1old : IndexRecord := ⟨"old.pdf", "oc", 1, none, none, none, none⟩
def c1new : IndexRecord := ⟨"new.pdf", "nc", 2, some "d", some "t", some "l", some "m"⟩

/-- C1, counterexample.  The upsert statement of the indexing pass
(`INSERT … ON DUPLICATE KEY UPDATE`, lines 553–566) does not list `filename`
among the updated columns: after a key-conflict upsert the stored row keeps
its old `filename` ("old.pdf") instead of the caller's new one ("new.pdf"),
so not all non-key columns are replaced. -/
theorem claim_C1_counterexample :
    (upsertFiles [("X", c1old)] "X" c1new).lookup "X" =
      some ⟨"old.pdf", "nc", 2, some "d", some "t", some "l", some "m"⟩ ∧
    (upsertFiles [("X", c1old)] "X" c1new).lookup "X" ≠ some c1new := by
  constructor
  · decide
  · decide

/-- C1, amended.  For a document whose DocumentID already has a row, the
key-conflict upsert replaces the non-key columns content, index_time, date,
time, location and mission_names with the new values, while `filename` keeps
its old value; for a fresh DocumentID the whole record is inserted. -/
theorem claim_C1_amended (db : List (String × IndexRecord)) (id : String)
    (r old : IndexRecord) :
    (db.lookup id = some old →
      (upsertFiles db id r).lookup id = some { r with filename := old.filename }) ∧
    (db.lookup id = none → (upsertFiles db id r).lookup id = some r) := by
  constructor
  · intro h
    unfold upsertFiles
    simp only [h, Option.isSome_some, if_true]
    exact lookup_map_replace (fun o => { r with filename := o.filename }) id db old h
  · intro h
    unfold upsertFiles
    simp only [h, Option.isSome_none, Bool.false_eq_true, if_false]
    exact lookup_append_none id r db h

/-- C1 witness: the amended statement at a concrete store. -/
theorem claim_C1_amended_witness :
    (upsertFiles [("X", c1old)] "X" c1new).lookup "X" =
      some { c1new with filename := c1old.filename } ∧
    (upsertFiles [] "X" c1new).lookup "X" = some c1new :=
  ⟨(claim_C1_amended [("X", c1old)] "X" c1new c1old).1 (by decide),
   (claim_C1_amended [] "X" c1new c1old).2 (by decide)⟩

theorem firstPatternMatch_none :
    ∀ (ps : List RE) (t : List Char), (∀ p ∈ ps, reSearch p t = none) →
      firstPatternMatch ps t = none
  | [], _, _ => rfl
  | p :: ps, t, h => by
    have hp := h p (List.mem_cons_self p ps)
    simp only [firstPatternMatch, hp]
    exact firstPatternMatch_none ps t (fun q hq => h q (List.mem_cons_of_mem p hq))

/-- C7.  The extracted date is the first match of the first pattern, in the
fixed priority order of `date_patterns`, that matches anywhere in the text:
if every pattern before `p` has no match and `p` matches, the result is `p`'s
leftmost match; if no pattern matches, the date is absent; and a text
containing both "11/22/1963" and "November 22, 1963" yields the slash-numeric
match because that pattern is first in the list. -/
theorem claim_C7 :
    (∀ (l1 l2 : List RE) (p : RE) (t : List Char) (i e : ℕ),
      (∀ q ∈ l1, reSearch q t = none) → reSearch p t = some (i, e) →
      firstPatternMatch (l1 ++ p :: l2) t = some (slice t i e)) ∧
    (∀ t : String, (∀ p ∈ datePatterns, reSearch p t.data = none) →
      extractDate t = none) ∧
    extractDate "Meeting on November 22, 1963 at 11/22/1963" = some "11/22/1963" := by
  refine ⟨?_, ?_, by decide⟩
  · intro l1
    induction l1 with
    | nil =>
      intro l2 p t i e _ hp
      simp [firstPatternMatch, hp]
    | cons q l1 ih =>
      intro l2 p t i e h1 hp
      have hq := h1 q (List.mem_cons_self q l1)
      simp only [List.cons_append, firstPatternMatch, hq]
      exact ih l2 p t i e (fun r hr => h1 r (List.mem_cons_of_mem q hr)) hp
  · intro t h
    unfold extractDate
    rw [firstPatternMatch_none _ _ h]
    rfl

/-- C7 witness: the priority statement applied at the slash-numeric pattern
and a concrete matching text, and the no-match statement at "zzz". -/
theorem claim_C7_witness :
    firstPatternMatch ([] ++ dPat1 :: []) "11/22/1963".data =
      some (slice "11/22/1963".data 0 10) ∧
    extractDate "zzz" = none :=
  ⟨claim_C7.1 [] [] dPat1 "11/22/1963".data 0 10 (by simp) (by decide),
   claim_C7.2.1 "zzz" (by decide)⟩

theorem foldl_dedupAppend (xs : List String) :
    ∀ acc, xs.foldl dedupAppend acc =
      acc ++ dedupFirst (xs.filter (fun y => y ∉ acc)) := by
  induction xs with
  | nil => intro acc; simp [dedupFirst]
  | cons x xs ih =>
    intro acc
    by_cases hx : x ∈ acc
    · rw [List.foldl_cons]
      rw [show dedupAppend acc x = acc from by simp [dedupAppend, hx]]
      rw [ih acc, List.filter_cons, if_neg (by simp [hx])]
    · rw [List.foldl_cons]
      rw [show dedupAppend acc x = acc ++ [x] from by simp [dedupAppend, hx]]
      rw [ih (acc ++ [x]), List.filter_cons, if_pos (by simp [hx])]
      rw [show dedupFirst (x :: xs.filter (fun y => y ∉ acc)) =
          x :: dedupFirst ((xs.filter (fun y => y ∉ acc)).filter (fun y => y ≠ x)) from by
        simp [dedupFirst]]
      have hfc : (xs.filter (fun y => y ∉ acc)).filter (fun y => y ≠ x) =
          xs.filter (fun y => y ∉ acc ++ [x]) := by
        rw [List.filter_filter]
        apply List.filter_congr
        intro a _
        by_cases h1 : a ∈ acc <;> by_cases h2 : a = x <;>
          simp [h1, h2, List.mem_append]
      rw [← hfc]
      simp

theorem missionFold_eq_stream (kws : List String) (t : List Char) :
    ∀ acc, kws.foldl
        (fun acc kw => (missionFindAll kw t).foldl
          (fun a tok => dedupAppend a (kw ++ " " ++ tok)) acc) acc =
      ((kws.map (fun kw => (missionFindAll kw t).map
          (fun tok => kw ++ " " ++ tok))).flatten).foldl dedupAppend acc := by
  induction kws with
  | nil => intro acc; rfl
  | cons kw kws ih =>
    intro acc
    rw [List.foldl_cons,
      ih ((missionFindAll kw t).foldl (fun a tok => dedupAppend a (kw ++ " " ++ tok)) acc),
      List.map_cons, List.flatten_cons, List.foldl_append, List.foldl_map]

/-- C8.  The mission-names list is exactly the first-seen-order
deduplication of the stream of `"<keyword> <token>"` occurrences (per keyword
in vocabulary order, per occurrence in text order); it is absent precisely
when that stream is empty; and the text repeating "Operation Mongoose" twice
yields "Operation Mongoose" exactly once. -/
theorem claim_C8 :
    (∀ t : String, extractMissionList t = dedupFirst (missionStream t)) ∧
    (∀ t : String, extractMissions t = none ↔ missionStream t = []) ∧
    (extractMissionList "Operation Mongoose started. Operation Mongoose again").count
      "Operation Mongoose" = 1 := by
  have hmain : ∀ t : String, extractMissionList t = dedupFirst (missionStream t) := by
    intro t
    have h1 : extractMissionList t = (missionStream t).foldl dedupAppend [] := by
      show MISSION_KEYWORDS.foldl _ [] = _
      rw [missionFold_eq_stream MISSION_KEYWORDS t.data []]
      rfl
    have hfilt : (missionStream t).filter (fun y => y ∉ ([] : List String)) =
        missionStream t := by
      rw [List.filter_eq_self]
      intro a _
      simp
    rw [h1, foldl_dedupAppend, hfilt]
    simp
  refine ⟨hmain, ?_, by decide⟩
  intro t
  have hl := hmain t
  rcases hs : missionStream t with _ | ⟨y, ys⟩
  · rw [hs] at hl
    simp [extractMissions, hl, dedupFirst]
  · rw [hs] at hl
    constructor
    · intro hnone
      unfold extractMissions at hnone
      rw [hl] at hnone
      simp [dedupFirst] at hnone
    · intro hemp
      exact absurd hemp (by simp)

/-- C4.  A document whose DocumentID already exists in the Record Store is
skipped: the iteration performs zero `extract_metadata`, rasterization and
OCR calls, leaves the record store and the cached-text artifacts unchanged,
increments `files_processed`, recomputes `progress` and persists exactly that
one snapshot; consequently re-running the whole loop over an already fully
indexed set changes no stored record and performs zero extraction work. -/
theorem claim_C4 :
    (∀ st db fs env, env.dbCheckOk = true →
      (db.lookup (itemId env.relPath)).isSome →
      indexStep st db fs env = ⟨bumpStatus st, db, fs, [bumpStatus st], Calls.zero⟩) ∧
    (∀ docs st db fs,
      (∀ env ∈ docs, env.dbCheckOk = true ∧ (db.lookup (itemId env.relPath)).isSome) →
      (runDocs st db fs docs).db = db ∧ (runDocs st db fs docs).fs = fs ∧
      (runDocs st db fs docs).calls = Calls.zero) := by
  have step : ∀ st db fs env, env.dbCheckOk = true →
      (db.lookup (itemId env.relPath)).isSome →
      indexStep st db fs env = ⟨bumpStatus st, db, fs, [bumpStatus st], Calls.zero⟩ := by
    intro st db fs env h1 h2
    unfold indexStep
    simp [h1, h2]
  refine ⟨step, ?_⟩
  intro docs
  induction docs with
  | nil => intro st db fs _; exact ⟨rfl, rfl, rfl⟩
  | cons e es ih =>
    intro st db fs h
    have he := h e (List.mem_cons_self e es)
    have hs := step st db fs e he.1 he.2
    have hrest := ih (bumpStatus st) db fs (fun env hm => h env (List.mem_cons_of_mem e hm))
    simp only [runDocs, hs]
    exact ⟨hrest.1, hrest.2.1, by rw [hrest.2.2]; exact Calls.zero_add _⟩

/-- C4 witness: skipping a concrete already-indexed document. -/
theorem claim_C4_witness :
    indexStep ⟨true, 1, 0, 0⟩ [("national_archives_d", c1old)] []
        ⟨"national_archives/d.pdf", true, ⟨"x", none⟩, none, true, 0⟩ =
      ⟨bumpStatus ⟨true, 1, 0, 0⟩, [("national_archives_d", c1old)], [],
       [bumpStatus ⟨true, 1, 0, 0⟩], Calls.zero⟩ ∧
    (runDocs ⟨true, 1, 0, 0⟩ [("national_archives_d", c1old)] []
        [⟨"national_archives/d.pdf", true, ⟨"x", none⟩, none, true, 0⟩]).db =
      [("national_archives_d", c1old)] :=
  ⟨claim_C4.1 _ _ _ _ (by decide) (by decide),
   (claim_C4.2 [⟨"national_archives/d.pdf", true, ⟨"x", none⟩, none, true, 0⟩]
     ⟨true, 1, 0, 0⟩ [("national_archives_d", c1old)] []
     (by intro env hm; constructor
         · simp at hm; rw [hm]
         · simp at hm; rw [hm]; decide)).1⟩

/-- C6.  In the per-page OCR loop of the full-indexing pass: OCR is attempted
at most twice per page; when the first attempt fails (timeout or recognition
error, which the code handles identically) the same page is retried after the
fixed retry delay; when both attempts fail the page contributes no text and
the remaining pages of the document are processed exactly as they would have
been — a failing page never aborts the document. -/
theorem claim_C6 :
    (∀ att : List (Option String), ((ocrPage att).2.count Ev.ocrCall) ≤ 2) ∧
    (∀ att : List (Option String), att.getD 0 none = none →
      (ocrPage att).2 =
        [Ev.ocrCall, Ev.sleepRetry, Ev.sleepCooldown, Ev.ocrCall, Ev.sleepCooldown] ∧
      (ocrPage att).1 = att.getD 1 none) ∧
    (∀ (rest : List PageEnv) (i : ℕ) (p : PageEnv), p.valid = true →
      p.att.getD 0 none = none → p.att.getD 1 none = none →
      runPagesAux i (p :: rest) =
        ((runPagesAux (i + 1) rest).1,
         (ocrPage p.att).2 ++ (runPagesAux (i + 1) rest).2)) := by
  have unroll : ∀ att : List (Option String), ocrPage att =
      match att.getD 0 none with
      | some s => (some s, [Ev.ocrCall, Ev.sleepCooldown])
      | none =>
        match att.getD 1 none with
        | some s =>
          (some s,
           [Ev.ocrCall, Ev.sleepRetry, Ev.sleepCooldown, Ev.ocrCall, Ev.sleepCooldown])
        | none =>
          (none,
           [Ev.ocrCall, Ev.sleepRetry, Ev.sleepCooldown, Ev.ocrCall, Ev.sleepCooldown]) := by
    intro att
    show ocrLoop att 2 0 = _
    rcases h0 : att.getD 0 none with _ | s0 <;>
      rcases h1 : att.getD 1 none with _ | s1 <;>
        simp only [ocrLoop, h0, h1, one_ne_zero, if_false, if_true]
  refine ⟨?_, ?_, ?_⟩
  · intro att
    rw [unroll att]
    rcases h0 : att.getD 0 none with _ | s0
    · rcases h1 : att.getD 1 none with _ | s1 <;> simp [List.count_cons]
    · simp [List.count_cons]
  · intro att h0
    rw [unroll att, h0]
    rcases h1 : att.getD 1 none with _ | s1 <;> simp
  · intro rest i p hv h0 h1
    have hres : (ocrPage p.att).1 = none := by rw [unroll p.att, h0, h1]
    conv_lhs => rw [runPagesAux]
    simp [hv, hres]

/-- C6 witness: a concrete page failing both attempts, followed by a page
that still gets processed. -/
theorem claim_C6_witness :
    ((ocrPage [none, none]).2.count Ev.ocrCall ≤ 2) ∧
    (ocrPage [none, some "T"]).2 =
      [Ev.ocrCall, Ev.sleepRetry, Ev.sleepCooldown, Ev.ocrCall, Ev.sleepCooldown] ∧
    runPagesAux 0 [⟨true, [none, none]⟩, ⟨true, [some "B"]⟩] =
      ((runPagesAux 1 [⟨true, [some "B"]⟩]).1,
       (ocrPage [none, none]).2 ++ (runPagesAux 1 [⟨true, [some "B"]⟩]).2) :=
  ⟨claim_C6.1 [none, none],
   (claim_C6.2.1 [none, some "T"] (by decide)).1,
   claim_C6.2.2 [⟨true, [some "B"]⟩] 0 ⟨true, [none, none]⟩ (by decide) (by decide) (by decide)⟩

theorem scaleMin {w h : ℤ} (hw : 0 < w) (hh : 0 < h) :
    min ((2000 : ℚ) / (w : ℚ)) ((2000 : ℚ) / (h : ℚ)) =
      (2000 : ℚ) / ((max w h : ℤ) : ℚ) := by
  rcases le_total w h with hwh | hwh
  · rw [max_eq_right hwh, min_eq_right]
    gcongr
  · rw [max_eq_left hwh, min_eq_left]
    gcongr

theorem floorScale {a m : ℤ} (hm : 0 < m) :
    ⌊(a : ℚ) * ((2000 : ℚ) / (m : ℚ))⌋ = a * 2000 / m := by
  have h1 : (a : ℚ) * ((2000 : ℚ) / (m : ℚ)) =
      ((a * 2000 : ℤ) : ℚ) / ((m.toNat : ℕ) : ℚ) := by
    have h2 : ((m.toNat : ℕ) : ℚ) = (m : ℚ) := by
      exact_mod_cast congrArg (fun z : ℤ => (z : ℚ)) (Int.toNat_of_nonneg hm.le)
    rw [h2]
    push_cast
    ring
  rw [h1, Rat.floor_intCast_div_natCast]
  rw [Int.toNat_of_nonneg hm.le]

theorem maxScale {w h : ℤ} (hw : 0 < w) (hh : 0 < h) :
    max (w * 2000 / max w h) (h * 2000 / max w h) = 2000 := by
  rcases le_total h w with hwh | hwh
  · rw [max_eq_left hwh]
    have e1 : w * 2000 / w = 2000 := by
      rw [mul_comm]; exact Int.mul_ediv_cancel 2000 (by omega)
    rw [e1]
    have e2 : h * 2000 / w ≤ 2000 := by
      calc h * 2000 / w ≤ w * 2000 / w := Int.ediv_le_ediv hw (by nlinarith)
        _ = 2000 := e1
    exact max_eq_left e2
  · rw [max_eq_right hwh]
    have e1 : h * 2000 / h = 2000 := by
      rw [mul_comm]; exact Int.mul_ediv_cancel 2000 (by omega)
    rw [e1]
    have e2 : w * 2000 / h ≤ 2000 := by
      calc w * 2000 / h ≤ h * 2000 / h := Int.ediv_le_ediv hh (by nlinarith)
        _ = 2000 := e1
    exact max_eq_right e2

/-- C9.  `validate_image` returns invalid when the file does not exist, when
it exceeds the 10 MB cap, when the image cannot be decoded, or when a
dimension is non-positive.  When the image is decodable and a dimension
exceeds 2000 pixels, it returns valid after persisting back to the same path
the downscaled image whose dimensions are `⌊d * 2000 / max w h⌋` (the exact
value of Python's `int(d * min(2000/w, 2000/h))` in exact arithmetic), so the
longer side equals exactly 2000 and the aspect ratio is preserved to within
the rounding of the floor. -/
theorem claim_C9 :
    (∀ jp fs p, fs.lookup p = none → (validate_image jp fs p).1.1 = false) ∧
    (∀ jp fs p f, fs.lookup p = some f → f.sizeBytes > 10 * 1048576 →
      (validate_image jp fs p).1.1 = false) ∧
    (∀ jp fs p f, fs.lookup p = some f → f.sizeBytes ≤ 10 * 1048576 → f.dims = none →
      (validate_image jp fs p).1.1 = false) ∧
    (∀ jp fs p f w h, fs.lookup p = some f → f.sizeBytes ≤ 10 * 1048576 →
      f.dims = some (w, h) → w ≤ 0 ∨ h ≤ 0 → (validate_image jp fs p).1.1 = false) ∧
    (∀ jp fs p f w h, fs.lookup p = some f → f.sizeBytes ≤ 10 * 1048576 →
      f.dims = some (w, h) → 0 < w → 0 < h → 2000 < w ∨ 2000 < h →
      (validate_image jp fs p).1.1 = true ∧
      (validate_image jp fs p).2 =
        assocSet fs p ⟨jp (w * 2000 / max w h) (h * 2000 / max w h),
          some (w * 2000 / max w h, h * 2000 / max w h)⟩ ∧
      max (w * 2000 / max w h) (h * 2000 / max w h) = 2000) := by
  refine ⟨?_, ?_, ?_, ?_, ?_⟩
  · intro jp fs p hf
    simp [validate_image, hf]
  · intro jp fs p f hf hsz
    simp [validate_image, hf, hsz]
  · intro jp fs p f hf hsz hd
    simp [validate_image, hf, hd, not_lt.mpr hsz]
  · intro jp fs p f w h hf hsz hd hneg
    simp [validate_image, hf, hd, not_lt.mpr hsz, hneg]
  · intro jp fs p f w h hf hsz hd hw hh hbig
    have hnw : ⌊(w : ℚ) * min ((2000 : ℚ) / (w : ℚ)) ((2000 : ℚ) / (h : ℚ))⌋ =
        w * 2000 / max w h := by
      rw [scaleMin hw hh]
      exact floorScale (lt_max_of_lt_left hw)
    have hnh : ⌊(h : ℚ) * min ((2000 : ℚ) / (w : ℚ)) ((2000 : ℚ) / (h : ℚ))⌋ =
        h * 2000 / max w h := by
      rw [scaleMin hw hh]
      exact floorScale (lt_max_of_lt_left hw)
    have hnp : ¬ (w ≤ 0 ∨ h ≤ 0) := by omega
    refine ⟨?_, ?_, maxScale hw hh⟩
    · simp [validate_image, hf, hd, not_lt.mpr hsz, hnp, hbig]
    · simp only [validate_image, hf, not_lt.mpr hsz, hd, hnp, hbig]
      simp [hnp, hbig, hnw, hnh]

/-- C9 witness: a missing file, and the spec's 4000×2000 image downscaled to
2000×1000. -/
theorem claim_C9_witness :
    (validate_image (fun _ _ => 7) [] "i").1.1 = false ∧
    ((validate_image (fun _ _ => 7) [("i", (⟨100, some (4000, 2000)⟩ : ImgFile))]
        "i").1.1 = true ∧
     (validate_image (fun _ _ => 7) [("i", (⟨100, some (4000, 2000)⟩ : ImgFile))]
        "i").2 =
       assocSet [("i", (⟨100, some (4000, 2000)⟩ : ImgFile))] "i"
         ⟨(fun _ _ => 7 : ℤ → ℤ → ℕ) ((4000 : ℤ) * 2000 / max 4000 2000)
            ((2000 : ℤ) * 2000 / max 4000 2000),
          some ((4000 : ℤ) * 2000 / max 4000 2000,
                (2000 : ℤ) * 2000 / max 4000 2000)⟩ ∧
     max ((4000 : ℤ) * 2000 / max 4000 2000)
       ((2000 : ℤ) * 2000 / max 4000 2000) = 2000) :=
  ⟨claim_C9.1 (fun _ _ => 7) [] "i" rfl,
   claim_C9.2.2.2.2 (fun _ _ => 7) [("i", ⟨100, some (4000, 2000)⟩)] "i"
     ⟨100, some (4000, 2000)⟩ 4000 2000 (by decide) (by decide) (by decide)
     (by decide) (by decide) (by decide)⟩

def c10docA : DocEnv :=
  ⟨"national_archives/a.pdfb.pdf", true, ⟨"x", none⟩, some [⟨true, [some "T"]⟩], true, 1⟩
def c10docB : DocEnv :=
  ⟨"national_archives/ab.pdf", true, ⟨"x", none⟩, some [⟨true, [some "U"]⟩], true, 2⟩

/-- C10.  The DocumentID derivation (delete every ".pdf" substring, then turn
every "/" into "_") is not injective: the two distinct enumerable paths
"national_archives/a.pdfb.pdf" and "national_archives/ab.pdf" (both ending in
".pdf") map to the same id "national_archives_ab"; indexing them in one pass
leaves a single record under that id, and the second document visited is
skipped by the already-indexed check, so the surviving record carries the
first document's filename. -/
theorem claim_C10 :
    itemId "national_archives/a.pdfb.pdf" = "national_archives_ab" ∧
    itemId "national_archives/ab.pdf" = "national_archives_ab" ∧
    ("national_archives/a.pdfb.pdf" : String) ≠ "national_archives/ab.pdf" ∧
    endsWithL ".pdf".data "national_archives/a.pdfb.pdf".data = true ∧
    endsWithL ".pdf".data "national_archives/ab.pdf".data = true ∧
    (runDocs ⟨true, 2, 0, 0⟩ [] [] [c10docA, c10docB]).db.map Prod.fst =
      ["national_archives_ab"] ∧
    ((runDocs ⟨true, 2, 0, 0⟩ [] [] [c10docA, c10docB]).db.lookup
        "national_archives_ab").map (fun r => r.filename) =
      some "national_archives/a.pdfb.pdf" := by
  refine ⟨by decide, by decide, by decide, by decide, by decide, by decide, by decide⟩

end JFK
